import Mathlib

/-!
Verification of the fastapi-pool-mvp repository: a shallow embedding of the
user CRUD service (src/app) and of the connection-pool acquisition contract,
with theorems settling the specification's claims.

The users table (src/app/db/init_db.py) has columns
id SERIAL PRIMARY KEY, name, email UNIQUE, created_at DEFAULT CURRENT_TIMESTAMP.
A database state carries the stored rows, the next SERIAL value and the
current clock used for the created_at default.
-/

/-- A stored row of the users table (src/app/db/init_db.py): id is the
SERIAL primary key, email is UNIQUE, created_at defaults to the insertion
time. -/
structure UserRow where
  id : Int
  name : String
  email : String
  created_at : Nat
deriving Repr, DecidableEq

/-- Request body schema UserCreate (src/app/schemas/user_schema.py). -/
structure UserCreate where
  name : String
  email : String
deriving Repr, DecidableEq

/-- Response schema UserResponse (src/app/schemas/user_schema.py): only
id, name and email — no timestamp field. -/
structure UserResponse where
  id : Int
  name : String
  email : String
deriving Repr, DecidableEq

/-- State of the database: stored rows, next SERIAL id, current clock. -/
structure DB where
  rows : List UserRow
  nextId : Int
  now : Nat
deriving Repr, DecidableEq

/-- Well-formedness of a database state: every stored id is positive and
below the next SERIAL value, and ids are pairwise distinct (PRIMARY KEY). -/
def DB.WF (db : DB) : Prop :=
  (∀ r ∈ db.rows, 0 < r.id ∧ r.id < db.nextId) ∧ (db.rows.map UserRow.id).Nodup

instance (db : DB) : Decidable db.WF := by
  unfold DB.WF; infer_instance

/-- Errors raised by the database driver that the service layer can see:
the uniqueness-constraint violation (asyncpg.UniqueViolationError), a
timeout while acquiring from the pool, and a connection-setup failure. -/
inductive DbError where
  | uniqueViolation
  | timeoutError
  | connectionError
deriving Repr, DecidableEq

/-- The timeout argument passed to pool.acquire() by every service
operation in src/app/services/user_service.py: the source writes
`pool_module.pool.acquire()` with no timeout, so the argument is none
(asyncpg then blocks indefinitely when the pool is exhausted). -/
def acquireTimeoutArg : Option Nat := none

/-- Events on the pool observed while a service operation runs. -/
inductive PoolEvent where
  | acquire
  | release
deriving Repr, DecidableEq

/-- Semantics of the `async with pool.acquire() as conn:` block used by
every service operation: if the acquire itself fails nothing is held and
the failure propagates; otherwise the body runs and the connection is
released on every exit path, success or exception, before the result or
exception propagates. -/
def withConn (pool : Except DbError Unit) (body : Except DbError α) :
    Except DbError α × List PoolEvent :=
  match pool with
  | .error e => (.error e, [])
  | .ok _ => (body, [PoolEvent.acquire, PoolEvent.release])

/-- Ordering of rows used by `ORDER BY id`. -/
def rowLe (a b : UserRow) : Prop := a.id ≤ b.id

instance : DecidableRel rowLe := fun a b => by unfold rowLe; infer_instance

instance : IsTotal UserRow rowLe := ⟨fun a b => Int.le_total a.id b.id⟩

instance : IsTrans UserRow rowLe := ⟨fun _ _ _ h h2 => Int.le_trans h h2⟩

/-- Projection of a stored row to the response schema, as built by
`UserResponse(**dict(row))` from `RETURNING id, name, email`: the
created_at column is not selected and does not appear in the response. -/
def toResp (r : UserRow) : UserResponse :=
  { id := r.id, name := r.name, email := r.email }

/-- `SELECT id, name, email FROM users ORDER BY id`
(src/app/services/user_service.py, fetch_users). -/
def selectUsersOrderedById (db : DB) : List UserResponse :=
  (db.rows.insertionSort rowLe).map toResp

/-- `INSERT INTO users (name, email) VALUES ($1, $2) RETURNING id, name, email`
against a table whose email column is UNIQUE: if a stored row already has
the given email the statement fails with the uniqueness violation;
otherwise a row with the next SERIAL id and created_at defaulted to the
current clock is appended. -/
def insertUser (db : DB) (u : UserCreate) : Except DbError (UserRow × DB) :=
  if db.rows.any (fun r => r.email == u.email) then
    .error .uniqueViolation
  else
    let row : UserRow := { id := db.nextId, name := u.name, email := u.email, created_at := db.now }
    .ok (row, { rows := db.rows ++ [row], nextId := db.nextId + 1, now := db.now })

/-- `SELECT id, name, email FROM users WHERE id = $1`
(src/app/services/user_service.py, get_user_by_id): the first row whose
primary key matches, if any. -/
def selectUserById (db : DB) (uid : Int) : Option UserRow :=
  db.rows.find? (fun r => r.id == uid)

/-- Service fetch_users (src/app/services/user_service.py): acquires a
connection, selects all users ordered by id, returns the responses. -/
def fetch_users (pool : Except DbError Unit) (db : DB) :
    Except DbError (List UserResponse) × List PoolEvent :=
  withConn pool (.ok (selectUsersOrderedById db))

/-- Service create_user (src/app/services/user_service.py): acquires a
connection, inserts the user, returns the response built from the
RETURNING id, name, email row together with the new database state. -/
def create_user (pool : Except DbError Unit) (db : DB) (u : UserCreate) :
    Except DbError (UserResponse × DB) × List PoolEvent :=
  withConn pool ((insertUser db u).map (fun p => (toResp p.fst, p.snd)))

/-- Service get_user_by_id (src/app/services/user_service.py): acquires a
connection, selects by primary key, returns some response or none. -/
def get_user_by_id (pool : Except DbError Unit) (db : DB) (uid : Int) :
    Except DbError (Option UserResponse) × List PoolEvent :=
  withConn pool (.ok ((selectUserById db uid).map toResp))

/-- Outcome of a request handler: a successful response with a status
code and body, an HTTPException with a status code and detail, or an
exception the handler does not catch (FastAPI turns it into a 500). -/
inductive HttpReply (α : Type) where
  | ok (status : Nat) (body : α)
  | httpError (status : Nat) (detail : String)
  | unhandled (e : DbError)
deriving Repr, DecidableEq

/-- HTTP status code of a reply; an exception no handler catches is
turned into 500 Internal Server Error by the framework. -/
def statusOf : HttpReply α → Nat
  | .ok s _ => s
  | .httpError s _ => s
  | .unhandled _ => 500

/-- Route GET /users/ (src/app/routes/user.py, list_users): returns the
service result; catches nothing. -/
def list_users (pool : Except DbError Unit) (db : DB) : HttpReply (List UserResponse) :=
  match (fetch_users pool db).fst with
  | .ok l => .ok 200 l
  | .error e => .unhandled e

/-- Route POST /users/ (src/app/routes/user.py, create_user): 201 on
success; catches asyncpg.UniqueViolationError and raises HTTPException
409 with detail Email already registered; every other exception
propagates uncaught. -/
def create_user_route (pool : Except DbError Unit) (db : DB) (u : UserCreate) :
    HttpReply UserResponse × DB :=
  match (create_user pool db u).fst with
  | .ok p => (.ok 201 p.fst, p.snd)
  | .error .uniqueViolation => (.httpError 409 "Email already registered", db)
  | .error e => (.unhandled e, db)

/-- Route GET /users/{user_id} (src/app/routes/user.py, get_user): the
path parameter is typed int, so any integer is accepted; when the service
returns no user the handler raises HTTPException 404 with detail
User not found. -/
def get_user (pool : Except DbError Unit) (db : DB) (uid : Int) : HttpReply UserResponse :=
  match (get_user_by_id pool db uid).fst with
  | .ok none => .httpError 404 "User not found"
  | .ok (some r) => .ok 200 r
  | .error e => .unhandled e

/-- close_pool (src/app/db/pool.py): closes the pool when one exists;
the given outcome is that of pool.close(). -/
def close_pool (poolPresent : Bool) (closeOutcome : Except String Unit) : Except String Unit :=
  if poolPresent then closeOutcome else .ok ()

/-- Shutdown block of lifespan (src/app/main.py, lines 23-30): prints
"Closing database pool...", awaits close_pool, prints "Application
shutdown completed" on success; on an exception prints "Shutdown error:"
with the message and re-raises it. Returns the propagated outcome and the
log lines printed. -/
def lifespan_shutdown (closeResult : Except String Unit) :
    Except String Unit × List String :=
  match closeResult with
  | .ok _ => (.ok (), ["Closing database pool...", "Application shutdown completed"])
  | .error e => (.error e, ["Closing database pool...", "Shutdown error: " ++ e])

/-- Modelled from the spec: the Pool implementation itself (asyncpg's
create_pool with min_size and max_size, reached through init_pool in
src/app/db/pool.py) is not part of the repository's sources, so the
bounded idle/in-use pool the spec describes is modelled here. Connections
are identified by the order of their creation; a state records the idle
set, the in-use (on-loan) set, the next fresh connection identifier and
the size bound. -/
structure PoolState where
  idle : List Nat
  inUse : List Nat
  nextConn : Nat
  maxSize : Nat
deriving Repr, DecidableEq

/-- Modelled from the spec: the initial pool state after init_pool with
min_size eagerly established connections, none on loan. -/
def initPool (minSize maxSize : Nat) : PoolState :=
  { idle := List.range minSize, inUse := [], nextConn := minSize, maxSize := maxSize }

/-- Modelled from the spec: one atomic step of the pool under concurrent
acquire and release calls. acquire hands out an idle connection when one
exists, creates a fresh one when none is idle and the bound allows, and
otherwise blocks (no step). release returns an on-loan connection to the
idle set. -/
inductive PoolStep : PoolState → PoolState → Prop where
  | acquireIdle {s : PoolState} {c : Nat} {rest : List Nat} :
      s.idle = c :: rest →
      PoolStep s { idle := rest, inUse := c :: s.inUse, nextConn := s.nextConn, maxSize := s.maxSize }
  | acquireNew {s : PoolState} :
      s.idle = [] → s.inUse.length < s.maxSize →
      PoolStep s { idle := [], inUse := s.nextConn :: s.inUse, nextConn := s.nextConn + 1, maxSize := s.maxSize }
  | release {s : PoolState} {c : Nat} :
      c ∈ s.inUse →
      PoolStep s { idle := c :: s.idle, inUse := s.inUse.erase c, nextConn := s.nextConn, maxSize := s.maxSize }

/-- A pool state reachable from another by any interleaving of acquire
and release steps. -/
def PoolReachable : PoolState → PoolState → Prop :=
  Relation.ReflTransGen PoolStep

/-- Internal invariant of the pool: the bound holds, no connection is
both idle and on loan (and none is duplicated), and every existing
connection identifier is below the fresh counter. -/
def PoolInv (s : PoolState) : Prop :=
  s.idle.length + s.inUse.length ≤ s.maxSize ∧
  (s.idle ++ s.inUse).Nodup ∧
  ∀ c ∈ s.idle ++ s.inUse, c < s.nextConn

theorem poolInv_init (minSize maxSize : Nat) (h : minSize ≤ maxSize) :
    PoolInv (initPool minSize maxSize) := by
  refine ⟨by simpa [initPool] using h, by simp [initPool, List.nodup_range], ?_⟩
  intro c hc
  simpa [initPool] using List.mem_range.mp (by simpa [initPool] using hc)

theorem poolInv_step {s t : PoolState} (hs : PoolInv s) (hstep : PoolStep s t) :
    PoolInv t := by
  obtain ⟨hlen, hnd, hfresh⟩ := hs
  cases hstep with
  | acquireIdle hidle =>
    rename_i c rest
    refine ⟨?_, ?_, ?_⟩
    · simp only []
      have := hlen
      rw [hidle] at this
      simpa [List.length_cons, Nat.add_comm, Nat.add_left_comm, Nat.add_assoc] using this
    · rw [hidle] at hnd
      have hperm : (rest ++ c :: s.inUse).Perm ((c :: rest) ++ s.inUse) :=
        List.perm_middle
      exact hperm.nodup_iff.mpr hnd
    · intro d hd
      apply hfresh
      rw [hidle]
      rcases List.mem_append.mp hd with h1 | h1
      · exact List.mem_append.mpr (Or.inl (List.mem_cons_of_mem _ h1))
      · rcases List.mem_cons.mp h1 with h2 | h2
        · exact List.mem_append.mpr (Or.inl (h2 ▸ List.mem_cons_self _ _))
        · exact List.mem_append.mpr (Or.inr h2)
  | acquireNew hidle hlt =>
    refine ⟨?_, ?_, ?_⟩
    · simpa using hlt
    · rw [hidle] at hnd
      simp only [List.nil_append] at hnd ⊢
      refine List.Nodup.cons ?_ hnd
      intro hmem
      exact absurd (hfresh _ (by rw [hidle]; simpa using hmem)) (lt_irrefl _)
    · intro d hd
      simp only [List.nil_append, List.mem_cons] at hd
      show d < s.nextConn + 1
      rcases hd with h1 | h1
      · omega
      · have := hfresh d (by rw [hidle]; simpa using h1)
        omega
  | release hc =>
    rename_i c
    refine ⟨?_, ?_, ?_⟩
    · have : (s.inUse.erase c).length + 1 = s.inUse.length := by
        simpa using (List.length_erase_add_one hc)
      simp only [List.length_cons]
      omega
    · have hperm : ((c :: s.idle) ++ s.inUse.erase c).Perm (s.idle ++ (c :: s.inUse.erase c)) := by
        have hmid : (s.idle ++ c :: s.inUse.erase c).Perm (c :: (s.idle ++ s.inUse.erase c)) :=
          List.perm_middle
        simpa using hmid.symm
      refine hperm.nodup_iff.mpr ?_
      have hperm2 : (c :: s.inUse.erase c).Perm s.inUse := (List.perm_cons_erase hc).symm
      exact (List.Perm.nodup_iff ((List.Perm.refl s.idle).append hperm2)).mpr hnd
    · intro d hd
      apply hfresh
      rcases List.mem_append.mp hd with h1 | h1
      · rcases List.mem_cons.mp h1 with h2 | h2
        · exact List.mem_append.mpr (Or.inr (h2 ▸ hc))
        · exact List.mem_append.mpr (Or.inl h2)
      · exact List.mem_append.mpr (Or.inr (List.mem_of_mem_erase h1))

theorem poolInv_reachable {s t : PoolState} (hs : PoolInv s) (h : PoolReachable s t) :
    PoolInv t := by
  induction h with
  | refl => exact hs
  | tail _ hstep ih => exact poolInv_step ih hstep

theorem selectUserById_eq_none {db : DB} {uid : Int} (h : ∀ r ∈ db.rows, r.id ≠ uid) :
    selectUserById db uid = none := by
  apply List.find?_eq_none.mpr
  intro r hr
  simpa using h r hr

/-- A concrete database state used as input in witnesses: one stored row. -/
def dbEx : DB :=
  { rows := [{ id := 1, name := "Alice", email := "alice@example.com", created_at := 7 }],
    nextId := 2, now := 9 }

/-- A concrete request body used as input in witnesses. -/
def uEx : UserCreate := { name := "Bob", email := "bob@example.com" }

/-- Claim C6: listUsers returns all stored Users ordered by ascending
identifier; when no Users are stored it returns an empty sequence as a
valid, non-error outcome. -/
theorem fetch_users_all_ordered (db : DB) :
    (fetch_users (.ok ()) db).fst = .ok (selectUsersOrderedById db) ∧
    (selectUsersOrderedById db).Pairwise (fun a b => a.id ≤ b.id) ∧
    (selectUsersOrderedById db).Perm (db.rows.map toResp) ∧
    (db.rows = [] → (fetch_users (.ok ()) db).fst = .ok []) := by
  refine ⟨rfl, ?_, ?_, ?_⟩
  · unfold selectUsersOrderedById
    rw [List.pairwise_map]
    have := List.sorted_insertionSort rowLe db.rows
    simpa [List.Sorted, rowLe, toResp] using this
  · exact (List.perm_insertionSort rowLe db.rows).map toResp
  · intro h
    simp [fetch_users, withConn, selectUsersOrderedById, h]

/-- Witness for C6 at a concrete database with one row, and at the empty
database for the empty-result conjunct. -/
theorem fetch_users_all_ordered_witness :
    ((fetch_users (.ok ()) dbEx).fst = .ok (selectUsersOrderedById dbEx) ∧
      (selectUsersOrderedById dbEx).Pairwise (fun a b => a.id ≤ b.id) ∧
      (selectUsersOrderedById dbEx).Perm (dbEx.rows.map toResp) ∧
      (dbEx.rows = [] → (fetch_users (.ok ()) dbEx).fst = .ok [])) ∧
    (fetch_users (.ok ()) { rows := [], nextId := 1, now := 0 }).fst = .ok [] :=
  ⟨fetch_users_all_ordered dbEx,
   (fetch_users_all_ordered { rows := [], nextId := 1, now := 0 }).2.2.2 rfl⟩

/-- Claim C7: for every id with no matching row, getUserById returns the
NotFound sentinel (none, not an error), and the GET /users/{id} handler
maps this outcome to HTTP 404. -/
theorem get_user_by_id_notfound (db : DB) (uid : Int)
    (h : ∀ r ∈ db.rows, r.id ≠ uid) :
    (get_user_by_id (.ok ()) db uid).fst = .ok none ∧
    get_user (.ok ()) db uid = .httpError 404 "User not found" := by
  have hfind := selectUserById_eq_none h
  exact ⟨by simp [get_user_by_id, withConn, hfind],
         by simp [get_user, get_user_by_id, withConn, hfind]⟩

/-- Witness for C7: id 5 matches no row of the concrete database. -/
theorem get_user_by_id_notfound_witness :
    (get_user_by_id (.ok ()) dbEx 5).fst = .ok none ∧
    get_user (.ok ()) dbEx 5 = .httpError 404 "User not found" :=
  get_user_by_id_notfound dbEx 5 (by decide)

/-- Claim C10: for every integer id — including zero and negative values —
the GET /users/{id} handler accepts the id (the path parameter is typed
int, so no validation error), and on a well-formed database, where every
stored id is positive, a non-positive id finds no row and the response is
the NotFound 404, never a server error. -/
theorem get_user_nonpositive_404 (db : DB) (uid : Int)
    (hwf : DB.WF db) (hid : uid ≤ 0) :
    get_user (.ok ()) db uid = .httpError 404 "User not found" ∧
    statusOf (get_user (.ok ()) db uid) = 404 := by
  have h : ∀ r ∈ db.rows, r.id ≠ uid := by
    intro r hr
    have := (hwf.1 r hr).1
    omega
  have hfind := selectUserById_eq_none h
  constructor
  · simp [get_user, get_user_by_id, withConn, hfind]
  · simp [get_user, get_user_by_id, withConn, hfind, statusOf]

/-- Witness for C10 at id -3 and at id 0 on the concrete database. -/
theorem get_user_nonpositive_404_witness :
    (get_user (.ok ()) dbEx (-3) = .httpError 404 "User not found" ∧
      statusOf (get_user (.ok ()) dbEx (-3)) = 404) ∧
    (get_user (.ok ()) dbEx 0 = .httpError 404 "User not found" ∧
      statusOf (get_user (.ok ()) dbEx 0) = 404) :=
  ⟨get_user_nonpositive_404 dbEx (-3) (by decide) (by decide),
   get_user_nonpositive_404 dbEx 0 (by decide) (by decide)⟩

/-- Traces left on the pool by an operation are balanced: every acquire
is matched by a release (so nothing is held at termination) and at most
one connection is ever acquired. -/
def balancedEvents (tr : List PoolEvent) : Prop :=
  tr.count PoolEvent.acquire = tr.count PoolEvent.release ∧
  tr.count PoolEvent.acquire ≤ 1

/-- Claim C8: every Repository operation acquires exactly one Connection
for its duration and releases it on every exit path — success, logic
error (such as a uniqueness violation), or pool failure — so no operation
terminates while still holding a Connection. -/
theorem ops_release_every_path (pool : Except DbError Unit) (db : DB)
    (u : UserCreate) (uid : Int) :
    balancedEvents (fetch_users pool db).snd ∧
    balancedEvents (create_user pool db u).snd ∧
    balancedEvents (get_user_by_id pool db uid).snd ∧
    (pool = .ok () →
      (fetch_users pool db).snd = [.acquire, .release] ∧
      (create_user pool db u).snd = [.acquire, .release] ∧
      (get_user_by_id pool db uid).snd = [.acquire, .release]) := by
  cases pool with
  | ok _ =>
    exact ⟨⟨rfl, Nat.le_refl 1⟩, ⟨rfl, Nat.le_refl 1⟩, ⟨rfl, Nat.le_refl 1⟩,
      fun _ => ⟨rfl, rfl, rfl⟩⟩
  | error e =>
    exact ⟨⟨rfl, Nat.zero_le 1⟩, ⟨rfl, Nat.zero_le 1⟩, ⟨rfl, Nat.zero_le 1⟩,
      fun h => by cases h⟩

/-- Witness for C8 at a healthy pool and concrete inputs, including the
logic-error path: uEx duplicates no email of dbEx but the duplicate input
is also covered since the theorem holds for every request body. -/
theorem ops_release_every_path_witness :
    balancedEvents (fetch_users (.ok ()) dbEx).snd ∧
    balancedEvents (create_user (.ok ()) dbEx uEx).snd ∧
    balancedEvents (get_user_by_id (.ok ()) dbEx 1).snd ∧
    ((.ok () : Except DbError Unit) = .ok () →
      (fetch_users (.ok ()) dbEx).snd = [.acquire, .release] ∧
      (create_user (.ok ()) dbEx uEx).snd = [.acquire, .release] ∧
      (get_user_by_id (.ok ()) dbEx 1).snd = [.acquire, .release]) :=
  ops_release_every_path (.ok ()) dbEx uEx 1

/-- Claim C1 (evaluating the code at the failing input): the services call
pool.acquire() with no timeout argument, so no caller-supplied acquire
timeout exists; and when acquiring does fail with a timeout exception, no
handler catches it — the error propagates (it is not swallowed) and the
framework surfaces it as 500 Internal Server Error, not 503. -/
theorem pool_error_unhandled_not_503 :
    acquireTimeoutArg = none ∧
    list_users (.error .timeoutError) dbEx = .unhandled .timeoutError ∧
    statusOf (list_users (.error .timeoutError) dbEx) = 500 ∧
    (create_user_route (.error .timeoutError) dbEx uEx).fst = .unhandled .timeoutError ∧
    statusOf (get_user (.error .timeoutError) dbEx 1) = 500 :=
  ⟨rfl, rfl, rfl, rfl, rfl⟩

/-- Counterexample for C3: the response of createUser does not include
the creation timestamp — no function of the returned UserResponse
recovers the stored created_at, because two insertions whose stored
timestamps differ (clocks 100 and 200) return equal responses. -/
theorem create_user_timestamp_not_returned :
    ¬ ∃ f : UserResponse → Nat,
      ∀ (db : DB) (u : UserCreate) (r : UserRow) (db2 : DB),
        insertUser db u = .ok (r, db2) → f (toResp r) = r.created_at := by
  rintro ⟨f, hf⟩
  have h1 := hf { rows := [], nextId := 1, now := 100 } { name := "Alice", email := "a@x" }
      { id := 1, name := "Alice", email := "a@x", created_at := 100 }
      { rows := [{ id := 1, name := "Alice", email := "a@x", created_at := 100 }],
        nextId := 2, now := 100 } rfl
  have h2 := hf { rows := [], nextId := 1, now := 200 } { name := "Alice", email := "a@x" }
      { id := 1, name := "Alice", email := "a@x", created_at := 200 }
      { rows := [{ id := 1, name := "Alice", email := "a@x", created_at := 200 }],
        nextId := 2, now := 200 } rfl
  simp only [toResp] at h1 h2
  rw [h1] at h2
  exact absurd h2 (by decide)

/-- Claim C3 as amended: for every valid (name, email) input whose email
is not already stored, createUser inserts a new User row — with the
storage-generated identifier and the creation timestamp stored in the
table — and returns the stored identifier, name and email; the timestamp
is stored but not part of the returned value. -/
theorem create_user_inserts_and_returns (db : DB) (u : UserCreate)
    (hfresh : ∀ r ∈ db.rows, r.email ≠ u.email) :
    (create_user (.ok ()) db u).fst =
      .ok ({ id := db.nextId, name := u.name, email := u.email },
        { rows := db.rows ++
            [{ id := db.nextId, name := u.name, email := u.email, created_at := db.now }],
          nextId := db.nextId + 1, now := db.now }) := by
  have hany : db.rows.any (fun r => r.email == u.email) = false := by
    rw [List.any_eq_false]
    intro r hr
    simpa using hfresh r hr
  simp [create_user, withConn, insertUser, hany, toResp, Except.map]

/-- Witness for C3 as amended: creating uEx on the concrete database. -/
theorem create_user_inserts_and_returns_witness :
    (create_user (.ok ()) dbEx uEx).fst =
      .ok ({ id := dbEx.nextId, name := uEx.name, email := uEx.email },
        { rows := dbEx.rows ++
            [{ id := dbEx.nextId, name := uEx.name, email := uEx.email, created_at := dbEx.now }],
          nextId := dbEx.nextId + 1, now := dbEx.now }) :=
  create_user_inserts_and_returns dbEx uEx (by decide)

/-- Claim C4: for every valid (name, email) pair whose email is not
already stored, on a well-formed database createUser followed by
getUserById on the returned identifier yields the very User that
createUser returned. -/
theorem create_then_get_roundtrip (db : DB) (u : UserCreate)
    (hwf : DB.WF db) (hfresh : ∀ r ∈ db.rows, r.email ≠ u.email)
    (resp : UserResponse) (db2 : DB)
    (h : (create_user (.ok ()) db u).fst = .ok (resp, db2)) :
    (get_user_by_id (.ok ()) db2 resp.id).fst = .ok (some resp) := by
  have hany : db.rows.any (fun r => r.email == u.email) = false := by
    rw [List.any_eq_false]
    intro r hr
    simpa using hfresh r hr
  simp only [create_user, withConn, insertUser, hany, Bool.false_eq_true, if_false,
    Except.map, toResp, Except.ok.injEq, Prod.mk.injEq] at h
  obtain ⟨hresp, hdb2⟩ := h
  subst hresp
  subst hdb2
  have hnone : db.rows.find? (fun r => r.id == db.nextId) = none := by
    apply List.find?_eq_none.mpr
    intro r hr
    have := (hwf.1 r hr).2
    simp only [beq_iff_eq]
    omega
  have hfind :
      List.find? (fun r => r.id == db.nextId)
        (db.rows ++ [{ id := db.nextId, name := u.name, email := u.email, created_at := db.now }]) =
      some { id := db.nextId, name := u.name, email := u.email, created_at := db.now } := by
    rw [List.find?_append, hnone]
    simp
  simp [get_user_by_id, withConn, selectUserById, hfind, toResp]

/-- Witness for C4: create uEx on the concrete database, then get the
returned id. -/
theorem create_then_get_roundtrip_witness :
    (get_user_by_id (.ok ())
        { rows := dbEx.rows ++
            [{ id := dbEx.nextId, name := uEx.name, email := uEx.email, created_at := dbEx.now }],
          nextId := dbEx.nextId + 1, now := dbEx.now }
        (UserResponse.id { id := dbEx.nextId, name := uEx.name, email := uEx.email })).fst =
      .ok (some { id := dbEx.nextId, name := uEx.name, email := uEx.email }) :=
  create_then_get_roundtrip dbEx uEx (by decide) (by decide)
    { id := dbEx.nextId, name := uEx.name, email := uEx.email }
    { rows := dbEx.rows ++
        [{ id := dbEx.nextId, name := uEx.name, email := uEx.email, created_at := dbEx.now }],
      nextId := dbEx.nextId + 1, now := dbEx.now }
    rfl

/-- Claim C5: after a successful createUser, a second createUser with the
same email fails with the uniqueness violation, which the POST /users/
handler maps to HTTP 409 (not a generic failure), the database is left
unchanged by the second call, and the table has gained exactly one row. -/
theorem duplicate_email_second_409 (db : DB) (u u2 : UserCreate)
    (r : UserRow) (db1 : DB) (hemail : u2.email = u.email)
    (h : insertUser db u = .ok (r, db1)) :
    create_user_route (.ok ()) db1 u2 = (.httpError 409 "Email already registered", db1) ∧
    db1.rows.length = db.rows.length + 1 := by
  have hdup : db.rows.any (fun row => row.email == u.email) = false := by
    by_contra hc
    rw [Bool.not_eq_false] at hc
    rw [insertUser, if_pos hc] at h
    cases h
  simp only [insertUser, hdup, Bool.false_eq_true, if_false,
    Except.ok.injEq, Prod.mk.injEq] at h
  obtain ⟨hr, hdb1⟩ := h
  have hany : db1.rows.any (fun row => row.email == u2.email) = true := by
    rw [← hdb1]
    simp [hemail]
  constructor
  · simp [create_user_route, create_user, withConn, insertUser, hany, Except.map]
  · rw [← hdb1]
    simp

/-- Witness for C5: create Alice twice with the same email on the empty
database. -/
theorem duplicate_email_second_409_witness :
    create_user_route (.ok ())
        { rows := [{ id := 1, name := "Alice", email := "a@x", created_at := 0 }],
          nextId := 2, now := 0 }
        { name := "Alice2", email := "a@x" } =
      (.httpError 409 "Email already registered",
        { rows := [{ id := 1, name := "Alice", email := "a@x", created_at := 0 }],
          nextId := 2, now := 0 }) ∧
    ({ rows := [{ id := 1, name := "Alice", email := "a@x", created_at := 0 }],
        nextId := 2, now := 0 } : DB).rows.length =
      ({ rows := [], nextId := 1, now := 0 } : DB).rows.length + 1 :=
  duplicate_email_second_409 { rows := [], nextId := 1, now := 0 }
    { name := "Alice", email := "a@x" } { name := "Alice2", email := "a@x" }
    { id := 1, name := "Alice", email := "a@x", created_at := 0 }
    { rows := [{ id := 1, name := "Alice", email := "a@x", created_at := 0 }],
      nextId := 2, now := 0 }
    rfl rfl

/-- Counterexample for C9: when closing the pool raises, the shutdown
block of lifespan does not complete normally — it re-raises the
exception after logging it, so the shutdown outcome is not success. -/
theorem shutdown_error_not_normal :
    ¬ (lifespan_shutdown (close_pool true (.error "boom"))).fst = .ok () := by
  simp [lifespan_shutdown, close_pool]

/-- Claim C9 as amended: any exception raised while shutting down the
pool is logged (a Shutdown error line) and then re-raised by the lifespan
shutdown block; shutdown completes normally exactly when close_pool
raises no exception. -/
theorem shutdown_logs_and_reraises (e : String) :
    lifespan_shutdown (close_pool true (.error e)) =
      (.error e, ["Closing database pool...", "Shutdown error: " ++ e]) ∧
    lifespan_shutdown (close_pool true (.ok ())) =
      (.ok (), ["Closing database pool...", "Application shutdown completed"]) :=
  ⟨rfl, rfl⟩

/-- Claim C2 (modelled from the spec, since the pool implementation is an
external driver library): in every pool state reachable from the initial
pool under any interleaving of acquire and release steps, at most
max_size connections exist, and acquire never hands out a connection
currently on loan — neither an idle connection (the head of the idle
list is never in the in-use set) nor a freshly created one (the fresh
identifier is never in the in-use set). -/
theorem pool_bound_and_exclusive (minSize maxSize : Nat) (hmm : minSize ≤ maxSize)
    (s : PoolState) (h : PoolReachable (initPool minSize maxSize) s) :
    s.idle.length + s.inUse.length ≤ s.maxSize ∧
    (∀ c rest, s.idle = c :: rest → c ∉ s.inUse) ∧
    s.nextConn ∉ s.inUse := by
  obtain ⟨hlen, hnd, hfresh⟩ := poolInv_reachable (poolInv_init minSize maxSize hmm) h
  refine ⟨hlen, ?_, ?_⟩
  · intro c rest hidle hcmem
    rw [hidle] at hnd
    have hdisj := (List.nodup_append.mp hnd).2.2
    exact hdisj (List.mem_cons_self c rest) hcmem
  · intro hmem
    exact absurd (hfresh s.nextConn (List.mem_append.mpr (Or.inr hmem))) (lt_irrefl _)

/-- Witness for C2: from the initial pool with min_size 1 and max_size 2,
after one acquire step the state has one connection on loan and satisfies
the bound and exclusivity properties. -/
theorem pool_bound_and_exclusive_witness :
    ({ idle := [], inUse := [0], nextConn := 1, maxSize := 2 } : PoolState).idle.length +
        ({ idle := [], inUse := [0], nextConn := 1, maxSize := 2 } : PoolState).inUse.length ≤
        ({ idle := [], inUse := [0], nextConn := 1, maxSize := 2 } : PoolState).maxSize ∧
    (∀ c rest,
        ({ idle := [], inUse := [0], nextConn := 1, maxSize := 2 } : PoolState).idle = c :: rest →
        c ∉ ({ idle := [], inUse := [0], nextConn := 1, maxSize := 2 } : PoolState).inUse) ∧
    ({ idle := [], inUse := [0], nextConn := 1, maxSize := 2 } : PoolState).nextConn ∉
      ({ idle := [], inUse := [0], nextConn := 1, maxSize := 2 } : PoolState).inUse :=
  pool_bound_and_exclusive 1 2 (by decide)
    { idle := [], inUse := [0], nextConn := 1, maxSize := 2 }
    (Relation.ReflTransGen.single (PoolStep.acquireIdle rfl))

